import Mathlib

/-!
Verification of the OUTPOST protocol dispatcher
(`modules/hal/src/outpost/hal/protocol_dispatcher.h`).

The header declares `ProtocolDispatcher<protocolType, numberOfQueues>` with
its `Listener` table, `uint32_t` diagnostic counters and the operations
`addQueue`, `setDefaultQueue`, `handlePackage`, the counter getters and
`resetErrorCounters`.  The separate implementation file
(`protocol_dispatcher_impl.h`, included at the bottom of the header) is not
part of the source tree, so the bodies of the operations are modelled from
the specification (sections 4.1 - 4.3 of the design document), while the
state shape and the counter types (`uint32_t`, hence arithmetic modulo
2^32) come from the header itself.

Modelling choices:
* bytes are `Nat`s; a frame is a `List Nat`;
* the protocol identifier is the raw byte string of width `idSize`
  (`sizeof(protocolType)`) found at byte offset `mOffset`; comparison is
  byte-exact equality, as the spec requires;
* buffer pools and queues are external collaborators referenced by index
  (a C++ pointer); `none` plays the role of `nullptr`;
* every `uint32_t` counter is a `Nat` kept reduced modulo `UINT32_MOD`.
-/

/-- 2^32: the modulus of the `uint32_t` counters declared in the header. -/
def UINT32_MOD : Nat := 4294967296

/-- Increment of a `uint32_t` counter. -/
def inc32 (n : Nat) : Nat := (n + 1) % UINT32_MOD

/-- Addition into a `uint32_t` counter. -/
def add32 (n m : Nat) : Nat := (n + m) % UINT32_MOD

/-- Modelled from the spec: a buffer pool (external collaborator,
`SharedBufferPoolBase`), reduced to what the dispatcher observes: a fixed
block size and the number of free blocks.  `acquire` succeeds iff a block
is free and the requested size fits the block size. -/
structure Pool where
  blockSize : Nat
  freeCount : Nat
deriving Repr, DecidableEq

/-- Modelled from the spec: a bounded FIFO queue of buffers (external
collaborator, `SharedBufferQueueBase`); a buffer is the byte list it
holds.  `trySend` succeeds iff the queue holds fewer items than its
capacity. -/
structure Queue where
  capacity : Nat
  items : List (List Nat)
deriving Repr, DecidableEq

/-- One registered route, mirroring `ProtocolDispatcher::Listener` from the
header: queue and pool references (indices standing for the C++ pointers,
`none` = `nullptr`), the identifier listened to, the three per-listener
`uint32_t` counters and the drop-partial policy flag. -/
structure Listener where
  mQueue : Option Nat
  mPool : Option Nat
  mId : List Nat
  mNumberOfDroppedPackages : Nat
  mNumberOfPartialPackages : Nat
  mNumberOfOverflowedBytes : Nat
  mDropPartialFlag : Bool
deriving Repr, DecidableEq

/-- The dispatcher state, mirroring the data members of
`ProtocolDispatcher`: the listener table (the populated prefix of
`mListeners`, in registration order), the optional default listener, the
four global `uint32_t` counters, the fixed identifier offset, the template
parameter `numberOfQueues` and the identifier width
`sizeof(protocolType)`. -/
structure ProtocolDispatcher where
  mListeners : List Listener
  mDefaultListener : Option Listener
  mNumberOfDroppedPackages : Nat
  mNumberOfUnmatchedPackages : Nat
  mNumberOfPartialPackages : Nat
  mNumberOfOverflowedBytes : Nat
  mOffset : Nat
  numberOfQueues : Nat
  idSize : Nat
deriving Repr, DecidableEq

/-- The constructor `ProtocolDispatcher(offSet)`: empty table, no default
listener, all counters zero. -/
def ProtocolDispatcher.init (numberOfQueues idSize offSet : Nat) : ProtocolDispatcher :=
  ⟨[], none, 0, 0, 0, 0, offSet, numberOfQueues, idSize⟩

/-- The dispatcher together with the external pools and queues it
references. -/
structure World where
  dispatcher : ProtocolDispatcher
  pools : List Pool
  queues : List Queue
deriving Repr, DecidableEq

/-- Modelled from the spec (4.1): `addQueue(id, pool, queue, dropPartial)`
fails (no mutation) on a null pool or queue or a full table, otherwise
appends a listener with zeroed counters. -/
def addQueue (d : ProtocolDispatcher) (id : List Nat) (pool queue : Option Nat)
    (dropFlag : Bool) : ProtocolDispatcher × Bool :=
  match pool, queue with
  | some pi, some qi =>
    if d.mListeners.length < d.numberOfQueues then
      ({ d with mListeners := d.mListeners ++ [⟨some qi, some pi, id, 0, 0, 0, dropFlag⟩] }, true)
    else
      (d, false)
  | _, _ => (d, false)

/-- Modelled from the spec (4.1): `setDefaultQueue(pool, queue,
dropPartial)` fails if the default is already set or a pointer is null,
otherwise installs the catch-all listener. -/
def setDefaultQueue (d : ProtocolDispatcher) (pool queue : Option Nat)
    (dropFlag : Bool) : ProtocolDispatcher × Bool :=
  match pool, queue with
  | some pi, some qi =>
    match d.mDefaultListener with
    | some _ => (d, false)
    | none => ({ d with mDefaultListener := some ⟨some qi, some pi, [], 0, 0, 0, dropFlag⟩ }, true)
  | _, _ => (d, false)

/-- Modelled from the spec (4.2 step 1): identifier extraction.  If the
frame is too short to contain the identifier field the result is `none`
(treated as unmatched); otherwise the `idSize` bytes at offset `offset`
are read verbatim. -/
def extractId (offset idSize : Nat) (frame : List Nat) : Option (List Nat) :=
  if frame.length < offset + idSize then none
  else some ((frame.drop offset).take idSize)

/-- How the dispatch of one package to its selected listener ended; the
pool-drop constructor records whether the block size was exceeded and by
how many bytes. -/
inductive Outcome where
  | delivered : Outcome
  | partialDrop : Outcome
  | poolDrop : Bool → Nat → Outcome
  | queueFullDrop : Outcome
deriving Repr, DecidableEq

/-- Result of delivering one package to one selected listener: the updated
listener, the updated external pools and queues, and the outcome. -/
structure DeliverResult where
  listener : Listener
  pools : List Pool
  queues : List Queue
  outcome : Outcome
deriving Repr, DecidableEq

/-- Modelled from the spec (4.2 steps 3-5), the per-listener part of
`handlePackage`/`insertIntoQueue`: the partial-frame check, buffer
acquisition from the listener's pool (with overflow-byte accounting when
the frame exceeds the block size), and the non-blocking enqueue with
release of the buffer when the queue is full. -/
def deliver (l : Listener) (pools : List Pool) (queues : List Queue)
    (frame : List Nat) (readBytes : Nat) : DeliverResult :=
  if frame.length < readBytes ∧ l.mDropPartialFlag = true then
    ⟨{ l with mNumberOfPartialPackages := inc32 l.mNumberOfPartialPackages },
      pools, queues, Outcome.partialDrop⟩
  else
    match l.mPool, l.mQueue with
    | some pi, some qi =>
      match pools[pi]? with
      | some p =>
        if frame.length ≤ p.blockSize ∧ 0 < p.freeCount then
          match queues[qi]? with
          | some q =>
            if q.items.length < q.capacity then
              ⟨l, pools.set pi { p with freeCount := p.freeCount - 1 },
                queues.set qi { q with items := q.items ++ [frame] },
                Outcome.delivered⟩
            else
              ⟨{ l with mNumberOfDroppedPackages := inc32 l.mNumberOfDroppedPackages },
                pools, queues, Outcome.queueFullDrop⟩
          | none =>
            ⟨{ l with mNumberOfDroppedPackages := inc32 l.mNumberOfDroppedPackages },
              pools, queues, Outcome.queueFullDrop⟩
        else
          ⟨{ l with
              mNumberOfDroppedPackages := inc32 l.mNumberOfDroppedPackages,
              mNumberOfOverflowedBytes :=
                if p.blockSize < frame.length then
                  add32 l.mNumberOfOverflowedBytes (frame.length - p.blockSize)
                else l.mNumberOfOverflowedBytes },
            pools, queues,
            Outcome.poolDrop (decide (p.blockSize < frame.length)) (frame.length - p.blockSize)⟩
      | none =>
        ⟨{ l with mNumberOfDroppedPackages := inc32 l.mNumberOfDroppedPackages },
          pools, queues, Outcome.poolDrop false 0⟩
    | _, _ =>
      ⟨{ l with mNumberOfDroppedPackages := inc32 l.mNumberOfDroppedPackages },
        pools, queues, Outcome.poolDrop false 0⟩

/-- Result of scanning the listener table: the rebuilt table with the
selected listener updated, the updated pools and queues, and the
outcome. -/
structure ScanResult where
  listeners : List Listener
  pools : List Pool
  queues : List Queue
  outcome : Outcome
deriving Repr, DecidableEq

/-- Modelled from the spec (4.2 step 2): scan the listener table in
registration order and deliver to the first listener whose id equals the
extracted identifier; `none` when no listener matches. -/
def dispatchScan (ls : List Listener) (pid : List Nat) (pools : List Pool)
    (queues : List Queue) (frame : List Nat) (readBytes : Nat) : Option ScanResult :=
  match ls with
  | [] => none
  | l :: rest =>
    if l.mId = pid then
      let r := deliver l pools queues frame readBytes
      some ⟨r.listener :: rest, r.pools, r.queues, r.outcome⟩
    else
      match dispatchScan rest pid pools queues frame readBytes with
      | some r => some ⟨l :: r.listeners, r.pools, r.queues, r.outcome⟩
      | none => none

/-- Mirror the per-listener counter updates of an outcome on the global
`uint32_t` counters of the dispatcher. -/
def applyOutcome (d : ProtocolDispatcher) (o : Outcome) : ProtocolDispatcher :=
  match o with
  | Outcome.delivered => d
  | Outcome.partialDrop =>
    { d with mNumberOfPartialPackages := inc32 d.mNumberOfPartialPackages }
  | Outcome.poolDrop over excess =>
    { d with
        mNumberOfDroppedPackages := inc32 d.mNumberOfDroppedPackages,
        mNumberOfOverflowedBytes :=
          if over then add32 d.mNumberOfOverflowedBytes excess
          else d.mNumberOfOverflowedBytes }
  | Outcome.queueFullDrop =>
    { d with mNumberOfDroppedPackages := inc32 d.mNumberOfDroppedPackages }

/-- Modelled from the spec (4.2): `handlePackage(package, readBytes)`.
Extract the identifier; when unreadable or unmatched with no default
listener, count the package as unmatched; otherwise deliver to the first
matching listener or to the default listener and mirror the outcome on
the global counters. -/
def handlePackage (w : World) (frame : List Nat) (readBytes : Nat) : World :=
  let d := w.dispatcher
  match extractId d.mOffset d.idSize frame with
  | none =>
    { w with dispatcher :=
        { d with mNumberOfUnmatchedPackages := inc32 d.mNumberOfUnmatchedPackages } }
  | some pid =>
    match dispatchScan d.mListeners pid w.pools w.queues frame readBytes with
    | some r =>
      ⟨applyOutcome { d with mListeners := r.listeners } r.outcome, r.pools, r.queues⟩
    | none =>
      match d.mDefaultListener with
      | some dl =>
        let r := deliver dl w.pools w.queues frame readBytes
        ⟨applyOutcome { d with mDefaultListener := some r.listener } r.outcome,
          r.pools, r.queues⟩
      | none =>
        { w with dispatcher :=
            { d with mNumberOfUnmatchedPackages := inc32 d.mNumberOfUnmatchedPackages } }

/-- Getter `getNumberOfDroppedPackages()`. -/
def getNumberOfDroppedPackages (d : ProtocolDispatcher) : Nat :=
  d.mNumberOfDroppedPackages

/-- Getter `getNumberOfPartialPackages()`. -/
def getNumberOfPartialPackages (d : ProtocolDispatcher) : Nat :=
  d.mNumberOfPartialPackages

/-- Getter `getNumberOfOverflowedBytes()`. -/
def getNumberOfOverflowedBytes (d : ProtocolDispatcher) : Nat :=
  d.mNumberOfOverflowedBytes

/-- Getter `getNumberOfUnmatchedPackages()`. -/
def getNumberOfUnmatchedPackages (d : ProtocolDispatcher) : Nat :=
  d.mNumberOfUnmatchedPackages

/-- Modelled from the spec (4.3): per-queue getter, summing the dropped
counter over every listener whose queue reference equals the argument;
the sum is a `uint32_t`. -/
def getNumberOfDroppedPackagesFor (d : ProtocolDispatcher) (qi : Nat) : Nat :=
  (((d.mListeners.filter (fun l => l.mQueue = some qi)).map
    (fun l => l.mNumberOfDroppedPackages)).sum) % UINT32_MOD

/-- Modelled from the spec (4.3): per-queue partial-package getter. -/
def getNumberOfPartialPackagesFor (d : ProtocolDispatcher) (qi : Nat) : Nat :=
  (((d.mListeners.filter (fun l => l.mQueue = some qi)).map
    (fun l => l.mNumberOfPartialPackages)).sum) % UINT32_MOD

/-- Modelled from the spec (4.3): per-queue overflowed-bytes getter. -/
def getNumberOfOverflowedBytesFor (d : ProtocolDispatcher) (qi : Nat) : Nat :=
  (((d.mListeners.filter (fun l => l.mQueue = some qi)).map
    (fun l => l.mNumberOfOverflowedBytes)).sum) % UINT32_MOD

/-- Zero the three counters of one listener. -/
def resetListener (l : Listener) : Listener :=
  { l with
      mNumberOfDroppedPackages := 0,
      mNumberOfPartialPackages := 0,
      mNumberOfOverflowedBytes := 0 }

/-- Modelled from the spec (4.3): `resetErrorCounters()` zeroes every
global and per-listener counter and touches nothing else. -/
def resetErrorCounters (d : ProtocolDispatcher) : ProtocolDispatcher :=
  { d with
      mListeners := d.mListeners.map resetListener,
      mDefaultListener := d.mDefaultListener.map resetListener,
      mNumberOfDroppedPackages := 0,
      mNumberOfUnmatchedPackages := 0,
      mNumberOfPartialPackages := 0,
      mNumberOfOverflowedBytes := 0 }

/-- One call of the dispatcher's public mutating interface, for stating
properties of every reachable state. -/
inductive Op where
  | addQ : List Nat → Option Nat → Option Nat → Bool → Op
  | setDefault : Option Nat → Option Nat → Bool → Op
  | handle : List Nat → Nat → Op
  | reset : Op
deriving Repr, DecidableEq

/-- Apply one interface call to the world. -/
def applyOp (w : World) (op : Op) : World :=
  match op with
  | Op.addQ id p q f => { w with dispatcher := (addQueue w.dispatcher id p q f).1 }
  | Op.setDefault p q f => { w with dispatcher := (setDefaultQueue w.dispatcher p q f).1 }
  | Op.handle frame rb => handlePackage w frame rb
  | Op.reset => { w with dispatcher := resetErrorCounters w.dispatcher }

/-- Run a sequence of interface calls. -/
def runOps (w : World) (ops : List Op) : World :=
  ops.foldl applyOp w

/-- Sum of one per-listener counter over the registered listeners. -/
def listenersSum (d : ProtocolDispatcher) (g : Listener → Nat) : Nat :=
  (d.mListeners.map g).sum

/-- The same counter read off the default listener, `0` when none is
set. -/
def defaultCounter (d : ProtocolDispatcher) (g : Listener → Nat) : Nat :=
  match d.mDefaultListener with
  | some l => g l
  | none => 0

/-- The invariant claimed by the spec, as stated: each global counter
dominates the sum of the corresponding per-listener counters. -/
def globalCountersGeListenerSums (d : ProtocolDispatcher) : Prop :=
  listenersSum d (fun l => l.mNumberOfDroppedPackages) ≤ d.mNumberOfDroppedPackages ∧
  listenersSum d (fun l => l.mNumberOfPartialPackages) ≤ d.mNumberOfPartialPackages ∧
  listenersSum d (fun l => l.mNumberOfOverflowedBytes) ≤ d.mNumberOfOverflowedBytes

/-- The accounting invariant that does hold of the `uint32_t` counters:
each global counter is congruent modulo 2^32 to the corresponding
per-listener sum plus the default listener's counter. -/
def counterCongruence (d : ProtocolDispatcher) : Prop :=
  ((d.mNumberOfDroppedPackages : ZMod UINT32_MOD) =
    (defaultCounter d (fun l => l.mNumberOfDroppedPackages) : ZMod UINT32_MOD) +
      (listenersSum d (fun l => l.mNumberOfDroppedPackages) : ZMod UINT32_MOD)) ∧
  ((d.mNumberOfPartialPackages : ZMod UINT32_MOD) =
    (defaultCounter d (fun l => l.mNumberOfPartialPackages) : ZMod UINT32_MOD) +
      (listenersSum d (fun l => l.mNumberOfPartialPackages) : ZMod UINT32_MOD)) ∧
  ((d.mNumberOfOverflowedBytes : ZMod UINT32_MOD) =
    (defaultCounter d (fun l => l.mNumberOfOverflowedBytes) : ZMod UINT32_MOD) +
      (listenersSum d (fun l => l.mNumberOfOverflowedBytes) : ZMod UINT32_MOD))

/-- Contribution of one dispatch outcome to the dropped counters. -/
def outDropDelta (o : Outcome) : Nat :=
  match o with
  | Outcome.poolDrop _ _ => 1
  | Outcome.queueFullDrop => 1
  | _ => 0

/-- Contribution of one dispatch outcome to the partial counters. -/
def outPartDelta (o : Outcome) : Nat :=
  match o with
  | Outcome.partialDrop => 1
  | _ => 0

/-- Contribution of one dispatch outcome to the overflowed-bytes
counters. -/
def outOverDelta (o : Outcome) : Nat :=
  match o with
  | Outcome.poolDrop b e => if b then e else 0
  | _ => 0

/-- Scenario state for counter-wrap analysis: an empty dispatcher whose
unmatched counter holds `k` events (stored as a `uint32_t`); the frame
`[]` is always unmatched against it. -/
def unmatchedIterWorld (k : Nat) : World :=
  ⟨⟨[], none, 0, k % UINT32_MOD, 0, 0, 0, 0, 1⟩, [], []⟩

/-- Scenario state for counter-wrap analysis: one listener on id byte 3
whose pool (block size 0, nothing free) rejects every acquisition, so
each dispatch of `[3]` is a counted drop with one overflowed byte, on the
listener and globally; `k` counts the events so far. -/
def dropIterWorld (k : Nat) : World :=
  ⟨⟨[⟨some 0, some 0, [3], k % UINT32_MOD, 0, k % UINT32_MOD, false⟩],
      none, k % UINT32_MOD, 0, 0, k % UINT32_MOD, 0, 1, 1⟩,
    [⟨0, 0⟩], [⟨1, []⟩]⟩

/-- Scenario state for counter-wrap analysis: one drop-partial listener on
id byte 4; each dispatch of `[4]` reported as 2 bytes is a counted
partial drop, on the listener and globally; `k` counts the events so
far. -/
def partialIterWorld (k : Nat) : World :=
  ⟨⟨[⟨some 0, some 0, [4], 0, k % UINT32_MOD, 0, true⟩],
      none, 0, 0, k % UINT32_MOD, 0, 0, 1, 1⟩,
    [⟨4, 1⟩], [⟨1, []⟩]⟩

/-- State family reached by the C9 counterexample trace: two listeners on
id bytes 0 and 1 sharing an exhausted pool, with `a` drops counted on the
first, `b` on the second and `g` globally (each stored as a
`uint32_t`). -/
def cexWorld (a b g : Nat) : World :=
  ⟨⟨[⟨some 0, some 0, [0], a % UINT32_MOD, 0, 0, false⟩,
      ⟨some 0, some 0, [1], b % UINT32_MOD, 0, 0, false⟩],
      none, g % UINT32_MOD, 0, 0, 0, 0, 2, 1⟩,
    [⟨1, 0⟩], [⟨1, []⟩]⟩

/-! ### Scan and delivery lemmas -/

theorem dispatchScan_no_match (ls : List Listener) (pid : List Nat) (pools : List Pool)
    (queues : List Queue) (frame : List Nat) (rb : Nat)
    (h : ∀ x ∈ ls, x.mId ≠ pid) :
    dispatchScan ls pid pools queues frame rb = none := by
  induction ls with
  | nil => rfl
  | cons a rest ih =>
    have ha : a.mId ≠ pid := h a (List.mem_cons_self a rest)
    have hr := ih (fun x hx => h x (List.mem_cons_of_mem a hx))
    simp [dispatchScan, ha, hr]

theorem dispatchScan_first_match (ls₁ : List Listener) (l : Listener) (ls₂ : List Listener)
    (pid : List Nat) (pools : List Pool) (queues : List Queue) (frame : List Nat) (rb : Nat)
    (h1 : ∀ x ∈ ls₁, x.mId ≠ pid) (h2 : l.mId = pid) :
    dispatchScan (ls₁ ++ l :: ls₂) pid pools queues frame rb =
      some ⟨ls₁ ++ (deliver l pools queues frame rb).listener :: ls₂,
            (deliver l pools queues frame rb).pools,
            (deliver l pools queues frame rb).queues,
            (deliver l pools queues frame rb).outcome⟩ := by
  induction ls₁ with
  | nil => simp [dispatchScan, h2]
  | cons a rest ih =>
    have ha : a.mId ≠ pid := h1 a (List.mem_cons_self a rest)
    have hr := ih (fun x hx => h1 x (List.mem_cons_of_mem a hx))
    simp [dispatchScan, ha, hr]

theorem handlePackage_matched (w : World) (frame : List Nat) (rb : Nat) (pid : List Nat)
    (ls₁ : List Listener) (l : Listener) (ls₂ : List Listener)
    (hx : extractId w.dispatcher.mOffset w.dispatcher.idSize frame = some pid)
    (hls : w.dispatcher.mListeners = ls₁ ++ l :: ls₂)
    (h1 : ∀ x ∈ ls₁, x.mId ≠ pid) (h2 : l.mId = pid) :
    handlePackage w frame rb =
      ⟨applyOutcome
          { w.dispatcher with
              mListeners := ls₁ ++ (deliver l w.pools w.queues frame rb).listener :: ls₂ }
          (deliver l w.pools w.queues frame rb).outcome,
        (deliver l w.pools w.queues frame rb).pools,
        (deliver l w.pools w.queues frame rb).queues⟩ := by
  have hscan := dispatchScan_first_match ls₁ l ls₂ pid w.pools w.queues frame rb h1 h2
  simp [handlePackage, hx, hls, hscan]

theorem handlePackage_unmatched (w : World) (frame : List Nat) (rb : Nat)
    (h : extractId w.dispatcher.mOffset w.dispatcher.idSize frame = none ∨
      ∃ pid, extractId w.dispatcher.mOffset w.dispatcher.idSize frame = some pid ∧
        ∀ x ∈ w.dispatcher.mListeners, x.mId ≠ pid)
    (hdef : w.dispatcher.mDefaultListener = none) :
    handlePackage w frame rb =
      { w with dispatcher :=
          { w.dispatcher with
              mNumberOfUnmatchedPackages := inc32 w.dispatcher.mNumberOfUnmatchedPackages } } := by
  rcases h with h | ⟨pid, hx, hno⟩
  · simp [handlePackage, h]
  · have hscan := dispatchScan_no_match w.dispatcher.mListeners pid w.pools w.queues frame rb hno
    simp [handlePackage, hx, hscan, hdef]

theorem handlePackage_default (w : World) (frame : List Nat) (rb : Nat) (pid : List Nat)
    (dl : Listener)
    (hx : extractId w.dispatcher.mOffset w.dispatcher.idSize frame = some pid)
    (hno : ∀ x ∈ w.dispatcher.mListeners, x.mId ≠ pid)
    (hdef : w.dispatcher.mDefaultListener = some dl) :
    handlePackage w frame rb =
      ⟨applyOutcome
          { w.dispatcher with
              mDefaultListener := some (deliver dl w.pools w.queues frame rb).listener }
          (deliver dl w.pools w.queues frame rb).outcome,
        (deliver dl w.pools w.queues frame rb).pools,
        (deliver dl w.pools w.queues frame rb).queues⟩ := by
  have hscan := dispatchScan_no_match w.dispatcher.mListeners pid w.pools w.queues frame rb hno
  simp [handlePackage, hx, hscan, hdef]

theorem deliver_success (l : Listener) (pools : List Pool) (queues : List Queue)
    (frame : List Nat) (rb : Nat) (pi qi : Nat) (p : Pool) (q : Queue)
    (hnp : ¬(frame.length < rb ∧ l.mDropPartialFlag = true))
    (hpool : l.mPool = some pi) (hqueue : l.mQueue = some qi)
    (hp : pools[pi]? = some p)
    (hfit : frame.length ≤ p.blockSize) (hfree : 0 < p.freeCount)
    (hq : queues[qi]? = some q)
    (hroom : q.items.length < q.capacity) :
    deliver l pools queues frame rb =
      ⟨l, pools.set pi { p with freeCount := p.freeCount - 1 },
        queues.set qi { q with items := q.items ++ [frame] }, Outcome.delivered⟩ := by
  simp [deliver, hnp, hpool, hqueue, hp, hq, hfit, hfree, hroom]

theorem deliver_partialDrop (l : Listener) (pools : List Pool) (queues : List Queue)
    (frame : List Nat) (rb : Nat)
    (hcut : frame.length < rb) (hflag : l.mDropPartialFlag = true) :
    deliver l pools queues frame rb =
      ⟨{ l with mNumberOfPartialPackages := inc32 l.mNumberOfPartialPackages },
        pools, queues, Outcome.partialDrop⟩ := by
  simp [deliver, hcut, hflag]

theorem deliver_poolFail (l : Listener) (pools : List Pool) (queues : List Queue)
    (frame : List Nat) (rb : Nat) (pi qi : Nat) (p : Pool)
    (hnp : ¬(frame.length < rb ∧ l.mDropPartialFlag = true))
    (hpool : l.mPool = some pi) (hqueue : l.mQueue = some qi)
    (hp : pools[pi]? = some p)
    (hfail : ¬(frame.length ≤ p.blockSize ∧ 0 < p.freeCount)) :
    deliver l pools queues frame rb =
      ⟨{ l with
          mNumberOfDroppedPackages := inc32 l.mNumberOfDroppedPackages,
          mNumberOfOverflowedBytes :=
            if p.blockSize < frame.length then
              add32 l.mNumberOfOverflowedBytes (frame.length - p.blockSize)
            else l.mNumberOfOverflowedBytes },
        pools, queues,
        Outcome.poolDrop (decide (p.blockSize < frame.length)) (frame.length - p.blockSize)⟩ := by
  simp [deliver, hnp, hpool, hqueue, hp, hfail]

theorem deliver_queueFull (l : Listener) (pools : List Pool) (queues : List Queue)
    (frame : List Nat) (rb : Nat) (pi qi : Nat) (p : Pool) (q : Queue)
    (hnp : ¬(frame.length < rb ∧ l.mDropPartialFlag = true))
    (hpool : l.mPool = some pi) (hqueue : l.mQueue = some qi)
    (hp : pools[pi]? = some p)
    (hfit : frame.length ≤ p.blockSize) (hfree : 0 < p.freeCount)
    (hq : queues[qi]? = some q)
    (hfull : ¬(q.items.length < q.capacity)) :
    deliver l pools queues frame rb =
      ⟨{ l with mNumberOfDroppedPackages := inc32 l.mNumberOfDroppedPackages },
        pools, queues, Outcome.queueFullDrop⟩ := by
  simp [deliver, hnp, hpool, hqueue, hp, hq, hfit, hfree, hfull]

theorem applyOutcome_delivered (d : ProtocolDispatcher) :
    applyOutcome d Outcome.delivered = d := rfl

theorem deliver_outcome_not_partialDrop (l : Listener) (pools : List Pool)
    (queues : List Queue) (frame : List Nat) (rb : Nat) (h : rb ≤ frame.length) :
    (deliver l pools queues frame rb).outcome ≠ Outcome.partialDrop := by
  have hnp : ¬(frame.length < rb ∧ l.mDropPartialFlag = true) := by
    intro hc
    exact absurd hc.1 (Nat.not_lt.mpr h)
  unfold deliver
  rw [if_neg hnp]
  rcases hP : l.mPool with _ | pi <;> rcases hQ : l.mQueue with _ | qi <;> simp
  rcases hp : pools[pi]? with _ | p <;> simp
  by_cases hacq : frame.length ≤ p.blockSize ∧ 0 < p.freeCount
  · rw [if_pos hacq]
    rcases hq : queues[qi]? with _ | q <;> simp
    by_cases hroom : q.items.length < q.capacity
    · rw [if_pos hroom]
      simp
    · rw [if_neg hroom]
      simp
  · rw [if_neg hacq]
    simp

/-! ### Claim theorems -/

/-- C1: for every frame whose length fits the matched listener's pool block
size, if the pool can supply a buffer, the queue has free capacity and the
reported length equals the frame length (not partial), `handlePackage`
enqueues exactly one buffer bit-identical to the frame into that
listener's queue (decrementing the pool's free count) and no counter —
global or per-listener — changes: the dispatcher state is exactly the one
before the call. -/
theorem C1_exact_match_delivery (w : World) (frame : List Nat) (pid : List Nat)
    (ls₁ : List Listener) (l : Listener) (ls₂ : List Listener)
    (pi qi : Nat) (p : Pool) (q : Queue)
    (hx : extractId w.dispatcher.mOffset w.dispatcher.idSize frame = some pid)
    (hls : w.dispatcher.mListeners = ls₁ ++ l :: ls₂)
    (h1 : ∀ x ∈ ls₁, x.mId ≠ pid) (h2 : l.mId = pid)
    (hpool : l.mPool = some pi) (hqueue : l.mQueue = some qi)
    (hp : w.pools[pi]? = some p)
    (hfit : frame.length ≤ p.blockSize) (hfree : 0 < p.freeCount)
    (hq : w.queues[qi]? = some q)
    (hroom : q.items.length < q.capacity) :
    handlePackage w frame frame.length =
      ⟨w.dispatcher,
        w.pools.set pi { p with freeCount := p.freeCount - 1 },
        w.queues.set qi { q with items := q.items ++ [frame] }⟩ := by
  have hnp : ¬(frame.length < frame.length ∧ l.mDropPartialFlag = true) := by
    intro hc
    exact absurd hc.1 (Nat.lt_irrefl _)
  have hdel := deliver_success l w.pools w.queues frame frame.length pi qi p q
    hnp hpool hqueue hp hfit hfree hq hroom
  rw [handlePackage_matched w frame frame.length pid ls₁ l ls₂ hx hls h1 h2, hdel]
  simp [applyOutcome, ← hls]

/-- Witness for C1 at a concrete input: one listener on id byte 5,
pool of block size 4 with 2 free blocks, empty queue of capacity 2,
frame `[5, 9]` reported with its own length. -/
theorem C1_witness :
    handlePackage
      ⟨⟨[⟨some 0, some 0, [5], 0, 0, 0, false⟩], none, 0, 0, 0, 0, 0, 1, 1⟩,
        [⟨4, 2⟩], [⟨2, []⟩]⟩ [5, 9] 2 =
      ⟨⟨[⟨some 0, some 0, [5], 0, 0, 0, false⟩], none, 0, 0, 0, 0, 0, 1, 1⟩,
        [⟨4, 1⟩], [⟨2, [[5, 9]]⟩]⟩ :=
  C1_exact_match_delivery
    ⟨⟨[⟨some 0, some 0, [5], 0, 0, 0, false⟩], none, 0, 0, 0, 0, 0, 1, 1⟩,
      [⟨4, 2⟩], [⟨2, []⟩]⟩ [5, 9] [5]
    [] ⟨some 0, some 0, [5], 0, 0, 0, false⟩ [] 0 0 ⟨4, 2⟩ ⟨2, []⟩
    (by decide) rfl (by simp) rfl rfl rfl rfl (by decide) (by decide) rfl (by decide)

/-- C2: `handlePackage` routes a readable frame to the earliest-registered
listener whose id equals the extracted identifier: when the table splits
as `ls₁ ++ l :: ls₂` with no match in `ls₁` and `l` matching, only `l` is
delivered to; every listener of `ls₂` — in particular a later duplicate
of the same identifier — is left exactly as it was. -/
theorem C2_first_registered_wins (w : World) (frame : List Nat) (rb : Nat)
    (pid : List Nat) (ls₁ : List Listener) (l : Listener) (ls₂ : List Listener)
    (hx : extractId w.dispatcher.mOffset w.dispatcher.idSize frame = some pid)
    (hls : w.dispatcher.mListeners = ls₁ ++ l :: ls₂)
    (h1 : ∀ x ∈ ls₁, x.mId ≠ pid) (h2 : l.mId = pid) :
    handlePackage w frame rb =
      ⟨applyOutcome
          { w.dispatcher with
              mListeners := ls₁ ++ (deliver l w.pools w.queues frame rb).listener :: ls₂ }
          (deliver l w.pools w.queues frame rb).outcome,
        (deliver l w.pools w.queues frame rb).pools,
        (deliver l w.pools w.queues frame rb).queues⟩ :=
  handlePackage_matched w frame rb pid ls₁ l ls₂ hx hls h1 h2

/-- Witness for C2 at a concrete input: two listeners both registered on
id byte 7; the frame lands in the first one's queue (queue 0), the second
listener and its queue are untouched. -/
theorem C2_witness :
    handlePackage
      ⟨⟨[⟨some 0, some 0, [7], 0, 0, 0, false⟩, ⟨some 1, some 1, [7], 0, 0, 0, false⟩],
          none, 0, 0, 0, 0, 0, 2, 1⟩,
        [⟨4, 1⟩, ⟨4, 1⟩], [⟨2, []⟩, ⟨2, []⟩]⟩ [7] 1 =
      ⟨⟨[⟨some 0, some 0, [7], 0, 0, 0, false⟩, ⟨some 1, some 1, [7], 0, 0, 0, false⟩],
          none, 0, 0, 0, 0, 0, 2, 1⟩,
        [⟨4, 0⟩, ⟨4, 1⟩], [⟨2, [[7]]⟩, ⟨2, []⟩]⟩ := by
  have h := C2_first_registered_wins
    ⟨⟨[⟨some 0, some 0, [7], 0, 0, 0, false⟩, ⟨some 1, some 1, [7], 0, 0, 0, false⟩],
        none, 0, 0, 0, 0, 0, 2, 1⟩,
      [⟨4, 1⟩, ⟨4, 1⟩], [⟨2, []⟩, ⟨2, []⟩]⟩ [7] 1 [7]
    [] ⟨some 0, some 0, [7], 0, 0, 0, false⟩ [⟨some 1, some 1, [7], 0, 0, 0, false⟩]
    (by decide) rfl (by simp) rfl
  rw [h]
  rfl

/-- C3: a frame whose identifier cannot be read (frame too short) or whose
identifier matches no registered listener is, when no default listener is
set, counted once in the unmatched counter and nothing else happens: no
pool loses a block, no queue grows, no other counter (global or
per-listener) changes. -/
theorem C3_unmatched_no_default (w : World) (frame : List Nat) (rb : Nat)
    (h : extractId w.dispatcher.mOffset w.dispatcher.idSize frame = none ∨
      ∃ pid, extractId w.dispatcher.mOffset w.dispatcher.idSize frame = some pid ∧
        ∀ x ∈ w.dispatcher.mListeners, x.mId ≠ pid)
    (hdef : w.dispatcher.mDefaultListener = none) :
    handlePackage w frame rb =
      { w with dispatcher :=
          { w.dispatcher with
              mNumberOfUnmatchedPackages := inc32 w.dispatcher.mNumberOfUnmatchedPackages } } :=
  handlePackage_unmatched w frame rb h hdef

/-- Witness for C3 at concrete inputs: one listener on id byte 5, the
frame `[9]` carries the unregistered id byte 9; only the unmatched counter
moves, pools and queues keep their state. -/
theorem C3_witness :
    handlePackage
      ⟨⟨[⟨some 0, some 0, [5], 0, 0, 0, false⟩], none, 0, 3, 0, 0, 0, 1, 1⟩,
        [⟨4, 2⟩], [⟨2, []⟩]⟩ [9] 1 =
      ⟨⟨[⟨some 0, some 0, [5], 0, 0, 0, false⟩], none, 0, 4, 0, 0, 0, 1, 1⟩,
        [⟨4, 2⟩], [⟨2, []⟩]⟩ := by
  have h := C3_unmatched_no_default
    ⟨⟨[⟨some 0, some 0, [5], 0, 0, 0, false⟩], none, 0, 3, 0, 0, 0, 1, 1⟩,
      [⟨4, 2⟩], [⟨2, []⟩]⟩ [9] 1
    (Or.inr ⟨[9], by decide, by decide⟩) rfl
  rw [h]
  decide

/-- C4: a frame matched to a listener — registered or default — whose
drop-partial flag is set and whose reported length exceeds the frame
length is discarded: that listener's partial counter and the global
partial counter move by one (modulo 2^32) and nothing else changes — no
buffer leaves a pool, no queue grows, dropped/overflow/unmatched counters
stay put; and a frame with reported length ≤ frame length is never
treated as partial. -/
theorem C4_partial_drop (w : World) (frame : List Nat) (rb : Nat) :
    (∀ pid ls₁ l ls₂,
      extractId w.dispatcher.mOffset w.dispatcher.idSize frame = some pid →
      w.dispatcher.mListeners = ls₁ ++ l :: ls₂ →
      (∀ x ∈ ls₁, x.mId ≠ pid) → l.mId = pid →
      l.mDropPartialFlag = true → frame.length < rb →
      handlePackage w frame rb =
        ⟨{ w.dispatcher with
            mListeners := ls₁ ++
              { l with mNumberOfPartialPackages := inc32 l.mNumberOfPartialPackages } :: ls₂,
            mNumberOfPartialPackages := inc32 w.dispatcher.mNumberOfPartialPackages },
          w.pools, w.queues⟩) ∧
    (∀ pid dl,
      extractId w.dispatcher.mOffset w.dispatcher.idSize frame = some pid →
      (∀ x ∈ w.dispatcher.mListeners, x.mId ≠ pid) →
      w.dispatcher.mDefaultListener = some dl →
      dl.mDropPartialFlag = true → frame.length < rb →
      handlePackage w frame rb =
        ⟨{ w.dispatcher with
            mDefaultListener :=
              some { dl with mNumberOfPartialPackages := inc32 dl.mNumberOfPartialPackages },
            mNumberOfPartialPackages := inc32 w.dispatcher.mNumberOfPartialPackages },
          w.pools, w.queues⟩) ∧
    (∀ l, rb ≤ frame.length →
      (deliver l w.pools w.queues frame rb).outcome ≠ Outcome.partialDrop) := by
  refine ⟨?_, ?_, ?_⟩
  · intro pid ls₁ l ls₂ hx hls h1 h2 hflag hcut
    rw [handlePackage_matched w frame rb pid ls₁ l ls₂ hx hls h1 h2,
      deliver_partialDrop l w.pools w.queues frame rb hcut hflag]
    simp [applyOutcome]
  · intro pid dl hx hno hdef hflag hcut
    rw [handlePackage_default w frame rb pid dl hx hno hdef,
      deliver_partialDrop dl w.pools w.queues frame rb hcut hflag]
    simp [applyOutcome]
  · intro l h
    exact deliver_outcome_not_partialDrop l w.pools w.queues frame rb h

/-- Witness for C4: a 1-byte frame reported as 5 bytes hits a
drop-partial listener (first conjunct) and a drop-partial default
listener (second conjunct); only the partial counters move. -/
theorem C4_witness :
    handlePackage
      ⟨⟨[⟨some 0, some 0, [1], 0, 0, 0, true⟩], none, 0, 0, 0, 0, 0, 1, 1⟩,
        [⟨4, 2⟩], [⟨2, []⟩]⟩ [1] 5 =
      ⟨⟨[⟨some 0, some 0, [1], 0, 1, 0, true⟩], none, 0, 0, 1, 0, 0, 1, 1⟩,
        [⟨4, 2⟩], [⟨2, []⟩]⟩ ∧
    handlePackage
      ⟨⟨[], some ⟨some 0, some 0, [], 0, 0, 0, true⟩, 0, 0, 0, 0, 0, 1, 1⟩,
        [⟨4, 2⟩], [⟨2, []⟩]⟩ [2] 5 =
      ⟨⟨[], some ⟨some 0, some 0, [], 0, 1, 0, true⟩, 0, 0, 1, 0, 0, 1, 1⟩,
        [⟨4, 2⟩], [⟨2, []⟩]⟩ := by
  constructor
  · have h := (C4_partial_drop
      ⟨⟨[⟨some 0, some 0, [1], 0, 0, 0, true⟩], none, 0, 0, 0, 0, 0, 1, 1⟩,
        [⟨4, 2⟩], [⟨2, []⟩]⟩ [1] 5).1 [1]
      [] ⟨some 0, some 0, [1], 0, 0, 0, true⟩ []
      (by decide) rfl (by simp) rfl rfl (by decide)
    rw [h]
    decide
  · have h := (C4_partial_drop
      ⟨⟨[], some ⟨some 0, some 0, [], 0, 0, 0, true⟩, 0, 0, 0, 0, 0, 1, 1⟩,
        [⟨4, 2⟩], [⟨2, []⟩]⟩ [2] 5).2.1 [2]
      ⟨some 0, some 0, [], 0, 0, 0, true⟩
      (by decide) (by simp) rfl rfl (by decide)
    rw [h]
    decide

/-- C5: when a frame matched to a registered listener (and not
partial-dropped) fails buffer acquisition, the listener's dropped counter
and the global dropped counter move by one; the overflow-byte counters
(listener and global) additionally receive the excess byte count exactly
when the frame length exceeds the pool's block size, and otherwise stay
unchanged; pools, queues and the partial/unmatched counters are
untouched. -/
theorem C5_pool_acquire_failure (w : World) (frame : List Nat) (rb : Nat)
    (pid : List Nat) (ls₁ : List Listener) (l : Listener) (ls₂ : List Listener)
    (pi qi : Nat) (p : Pool)
    (hx : extractId w.dispatcher.mOffset w.dispatcher.idSize frame = some pid)
    (hls : w.dispatcher.mListeners = ls₁ ++ l :: ls₂)
    (h1 : ∀ x ∈ ls₁, x.mId ≠ pid) (h2 : l.mId = pid)
    (hnp : ¬(frame.length < rb ∧ l.mDropPartialFlag = true))
    (hpool : l.mPool = some pi) (hqueue : l.mQueue = some qi)
    (hp : w.pools[pi]? = some p)
    (hfail : ¬(frame.length ≤ p.blockSize ∧ 0 < p.freeCount)) :
    handlePackage w frame rb =
      ⟨{ w.dispatcher with
          mListeners := ls₁ ++
            { l with
                mNumberOfDroppedPackages := inc32 l.mNumberOfDroppedPackages,
                mNumberOfOverflowedBytes :=
                  if p.blockSize < frame.length then
                    add32 l.mNumberOfOverflowedBytes (frame.length - p.blockSize)
                  else l.mNumberOfOverflowedBytes } :: ls₂,
          mNumberOfDroppedPackages := inc32 w.dispatcher.mNumberOfDroppedPackages,
          mNumberOfOverflowedBytes :=
            if p.blockSize < frame.length then
              add32 w.dispatcher.mNumberOfOverflowedBytes (frame.length - p.blockSize)
            else w.dispatcher.mNumberOfOverflowedBytes },
        w.pools, w.queues⟩ := by
  rw [handlePackage_matched w frame rb pid ls₁ l ls₂ hx hls h1 h2,
    deliver_poolFail l w.pools w.queues frame rb pi qi p hnp hpool hqueue hp hfail]
  by_cases hov : p.blockSize < frame.length <;> simp [applyOutcome, hov]

/-- Witness for C5 at a concrete input: the pool has a free block but the
3-byte frame exceeds the block size 2, so the drop is also an overflow of
1 byte on both the listener and the global counter. -/
theorem C5_witness :
    handlePackage
      ⟨⟨[⟨some 0, some 0, [6], 0, 0, 0, false⟩], none, 0, 0, 0, 0, 0, 1, 1⟩,
        [⟨2, 1⟩], [⟨2, []⟩]⟩ [6, 0, 0] 3 =
      ⟨⟨[⟨some 0, some 0, [6], 1, 0, 1, false⟩], none, 1, 0, 0, 1, 0, 1, 1⟩,
        [⟨2, 1⟩], [⟨2, []⟩]⟩ := by
  have h := C5_pool_acquire_failure
    ⟨⟨[⟨some 0, some 0, [6], 0, 0, 0, false⟩], none, 0, 0, 0, 0, 0, 1, 1⟩,
      [⟨2, 1⟩], [⟨2, []⟩]⟩ [6, 0, 0] 3 [6]
    [] ⟨some 0, some 0, [6], 0, 0, 0, false⟩ [] 0 0 ⟨2, 1⟩
    (by decide) rfl (by simp) rfl (by decide) rfl rfl rfl (by decide)
  rw [h]
  decide

/-- C6: when the frame reaches the copy-and-enqueue step and the
non-blocking send fails because the queue is full, the acquired buffer is
released back to the pool — the pools component of the state is exactly
what it was before the call — and the listener's and the global dropped
counters move by one; when the send succeeds the buffer stays acquired
(the pool's free count is down by one) and no counter changes at all. -/
theorem C6_queue_full_release (w : World) (frame : List Nat) (rb : Nat) :
    (∀ pid ls₁ l ls₂ pi qi p q,
      extractId w.dispatcher.mOffset w.dispatcher.idSize frame = some pid →
      w.dispatcher.mListeners = ls₁ ++ l :: ls₂ →
      (∀ x ∈ ls₁, x.mId ≠ pid) → l.mId = pid →
      ¬(frame.length < rb ∧ l.mDropPartialFlag = true) →
      l.mPool = some pi → l.mQueue = some qi →
      w.pools[pi]? = some p →
      frame.length ≤ p.blockSize → 0 < p.freeCount →
      w.queues[qi]? = some q →
      ¬(q.items.length < q.capacity) →
      handlePackage w frame rb =
        ⟨{ w.dispatcher with
            mListeners := ls₁ ++
              { l with mNumberOfDroppedPackages := inc32 l.mNumberOfDroppedPackages } :: ls₂,
            mNumberOfDroppedPackages := inc32 w.dispatcher.mNumberOfDroppedPackages },
          w.pools, w.queues⟩) ∧
    (∀ pid ls₁ l ls₂ pi qi p q,
      extractId w.dispatcher.mOffset w.dispatcher.idSize frame = some pid →
      w.dispatcher.mListeners = ls₁ ++ l :: ls₂ →
      (∀ x ∈ ls₁, x.mId ≠ pid) → l.mId = pid →
      ¬(frame.length < rb ∧ l.mDropPartialFlag = true) →
      l.mPool = some pi → l.mQueue = some qi →
      w.pools[pi]? = some p →
      frame.length ≤ p.blockSize → 0 < p.freeCount →
      w.queues[qi]? = some q →
      q.items.length < q.capacity →
      handlePackage w frame rb =
        ⟨w.dispatcher,
          w.pools.set pi { p with freeCount := p.freeCount - 1 },
          w.queues.set qi { q with items := q.items ++ [frame] }⟩) := by
  constructor
  · intro pid ls₁ l ls₂ pi qi p q hx hls h1 h2 hnp hpool hqueue hp hfit hfree hq hfull
    rw [handlePackage_matched w frame rb pid ls₁ l ls₂ hx hls h1 h2,
      deliver_queueFull l w.pools w.queues frame rb pi qi p q hnp hpool hqueue hp hfit hfree hq hfull]
    simp [applyOutcome]
  · intro pid ls₁ l ls₂ pi qi p q hx hls h1 h2 hnp hpool hqueue hp hfit hfree hq hroom
    rw [handlePackage_matched w frame rb pid ls₁ l ls₂ hx hls h1 h2,
      deliver_success l w.pools w.queues frame rb pi qi p q hnp hpool hqueue hp hfit hfree hq hroom]
    simp [applyOutcome, ← hls]

/-- Witness for C6: a full queue of capacity 1 forces a counted drop with
the pool state restored (first conjunct); the same world with a roomy
queue delivers with the pool block consumed and counters unchanged
(second conjunct). -/
theorem C6_witness :
    handlePackage
      ⟨⟨[⟨some 0, some 0, [8], 0, 0, 0, false⟩], none, 0, 0, 0, 0, 0, 1, 1⟩,
        [⟨4, 3⟩], [⟨1, [[9]]⟩]⟩ [8] 1 =
      ⟨⟨[⟨some 0, some 0, [8], 1, 0, 0, false⟩], none, 1, 0, 0, 0, 0, 1, 1⟩,
        [⟨4, 3⟩], [⟨1, [[9]]⟩]⟩ ∧
    handlePackage
      ⟨⟨[⟨some 0, some 0, [8], 0, 0, 0, false⟩], none, 0, 0, 0, 0, 0, 1, 1⟩,
        [⟨4, 3⟩], [⟨2, [[9]]⟩]⟩ [8] 1 =
      ⟨⟨[⟨some 0, some 0, [8], 0, 0, 0, false⟩], none, 0, 0, 0, 0, 0, 1, 1⟩,
        [⟨4, 2⟩], [⟨2, [[9], [8]]⟩]⟩ := by
  constructor
  · have h := (C6_queue_full_release
      ⟨⟨[⟨some 0, some 0, [8], 0, 0, 0, false⟩], none, 0, 0, 0, 0, 0, 1, 1⟩,
        [⟨4, 3⟩], [⟨1, [[9]]⟩]⟩ [8] 1).1 [8]
      [] ⟨some 0, some 0, [8], 0, 0, 0, false⟩ [] 0 0 ⟨4, 3⟩ ⟨1, [[9]]⟩
      (by decide) rfl (by simp) rfl (by decide) rfl rfl rfl (by decide) (by decide) rfl (by decide)
    rw [h]
    decide
  · have h := (C6_queue_full_release
      ⟨⟨[⟨some 0, some 0, [8], 0, 0, 0, false⟩], none, 0, 0, 0, 0, 0, 1, 1⟩,
        [⟨4, 3⟩], [⟨2, [[9]]⟩]⟩ [8] 1).2 [8]
      [] ⟨some 0, some 0, [8], 0, 0, 0, false⟩ [] 0 0 ⟨4, 3⟩ ⟨2, [[9]]⟩
      (by decide) rfl (by simp) rfl (by decide) rfl rfl rfl (by decide) (by decide) rfl (by decide)
    rw [h]
    decide

theorem sum_after_reset (ls : List Listener) (pq : Listener → Bool) (g : Listener → Nat)
    (hg : ∀ x, g (resetListener x) = 0) :
    (((ls.map resetListener).filter pq).map g).sum = 0 := by
  apply List.sum_eq_zero
  intro x hx
  simp only [List.mem_map, List.mem_filter] at hx
  obtain ⟨a, ⟨ha, _⟩, rfl⟩ := hx
  obtain ⟨b, _, rfl⟩ := ha
  exact hg b

/-- C7: `addQueue` returns false and leaves the dispatcher completely
unchanged whenever the pool pointer is null, the queue pointer is null, or
the listener count already equals `numberOfQueues` — so a null argument
fails even with capacity left and at most `numberOfQueues` calls can ever
succeed; in every other case (both pointers non-null, table not full) it
appends exactly one listener with the given id, references and flag and
zeroed counters at the end of the table and returns true. -/
theorem C7_addQueue_contract (d : ProtocolDispatcher) (id : List Nat)
    (pool queue : Option Nat) (f : Bool)
    (hcap : d.mListeners.length ≤ d.numberOfQueues) :
    ((pool = none ∨ queue = none ∨ d.mListeners.length = d.numberOfQueues) →
      addQueue d id pool queue f = (d, false)) ∧
    (∀ pi qi, pool = some pi → queue = some qi →
      d.mListeners.length ≠ d.numberOfQueues →
      addQueue d id pool queue f =
        ({ d with mListeners := d.mListeners ++ [⟨some qi, some pi, id, 0, 0, 0, f⟩] }, true)) := by
  constructor
  · rintro (rfl | rfl | hfull)
    · rfl
    · cases pool <;> rfl
    · cases pool with
      | none => rfl
      | some pi =>
        cases queue with
        | none => rfl
        | some qi =>
          simp [addQueue, hfull]
  · rintro pi qi rfl rfl hne
    have hlt : d.mListeners.length < d.numberOfQueues := lt_of_le_of_ne hcap hne
    simp [addQueue, hlt]

/-- Witness for C7: with capacity 1, registering into the fresh dispatcher
succeeds and appends the listener; a second registration fails with the
table unchanged, as does a registration with a null pool. -/
theorem C7_witness :
    addQueue (ProtocolDispatcher.init 1 1 0) [5] (some 0) (some 0) false =
      (⟨[⟨some 0, some 0, [5], 0, 0, 0, false⟩], none, 0, 0, 0, 0, 0, 1, 1⟩, true) ∧
    addQueue ⟨[⟨some 0, some 0, [5], 0, 0, 0, false⟩], none, 0, 0, 0, 0, 0, 1, 1⟩
        [6] (some 0) (some 0) false =
      (⟨[⟨some 0, some 0, [5], 0, 0, 0, false⟩], none, 0, 0, 0, 0, 0, 1, 1⟩, false) ∧
    addQueue (ProtocolDispatcher.init 1 1 0) [5] none (some 0) false =
      (ProtocolDispatcher.init 1 1 0, false) := by
  refine ⟨?_, ?_, ?_⟩
  · have h := (C7_addQueue_contract (ProtocolDispatcher.init 1 1 0) [5]
      (some 0) (some 0) false (by decide)).2 0 0 rfl rfl (by decide)
    rw [h]
    decide
  · have h := (C7_addQueue_contract
      ⟨[⟨some 0, some 0, [5], 0, 0, 0, false⟩], none, 0, 0, 0, 0, 0, 1, 1⟩ [6]
      (some 0) (some 0) false (by decide)).1 (Or.inr (Or.inr (by decide)))
    rw [h]
  · have h := (C7_addQueue_contract (ProtocolDispatcher.init 1 1 0) [5]
      none (some 0) false (by decide)).1 (Or.inl rfl)
    rw [h]

/-- C8: after `resetErrorCounters` every counter getter — the four global
getters and the three per-queue getters at every queue — returns 0, while
the registered listeners (ids, pool and queue references, drop-partial
flags, order and number), the default listener's identity, the offset,
the capacity and the identifier width are unchanged. -/
theorem C8_reset_zeroes_counters (d : ProtocolDispatcher) :
    getNumberOfDroppedPackages (resetErrorCounters d) = 0 ∧
    getNumberOfPartialPackages (resetErrorCounters d) = 0 ∧
    getNumberOfOverflowedBytes (resetErrorCounters d) = 0 ∧
    getNumberOfUnmatchedPackages (resetErrorCounters d) = 0 ∧
    (∀ qi, getNumberOfDroppedPackagesFor (resetErrorCounters d) qi = 0 ∧
      getNumberOfPartialPackagesFor (resetErrorCounters d) qi = 0 ∧
      getNumberOfOverflowedBytesFor (resetErrorCounters d) qi = 0) ∧
    (resetErrorCounters d).mListeners.map
        (fun l => (l.mId, l.mPool, l.mQueue, l.mDropPartialFlag)) =
      d.mListeners.map (fun l => (l.mId, l.mPool, l.mQueue, l.mDropPartialFlag)) ∧
    (resetErrorCounters d).mListeners.length = d.mListeners.length ∧
    (resetErrorCounters d).mDefaultListener.map
        (fun l => (l.mId, l.mPool, l.mQueue, l.mDropPartialFlag)) =
      d.mDefaultListener.map (fun l => (l.mId, l.mPool, l.mQueue, l.mDropPartialFlag)) ∧
    (resetErrorCounters d).mOffset = d.mOffset ∧
    (resetErrorCounters d).numberOfQueues = d.numberOfQueues ∧
    (resetErrorCounters d).idSize = d.idSize := by
  refine ⟨rfl, rfl, rfl, rfl, ?_, ?_, ?_, ?_, rfl, rfl, rfl⟩
  · intro qi
    refine ⟨?_, ?_, ?_⟩
    · simp only [getNumberOfDroppedPackagesFor, resetErrorCounters]
      rw [sum_after_reset]
      · rfl
      · intro x
        rfl
    · simp only [getNumberOfPartialPackagesFor, resetErrorCounters]
      rw [sum_after_reset]
      · rfl
      · intro x
        rfl
    · simp only [getNumberOfOverflowedBytesFor, resetErrorCounters]
      rw [sum_after_reset]
      · rfl
      · intro x
        rfl
  · simp [resetErrorCounters, resetListener, List.map_map, Function.comp]
  · simp [resetErrorCounters]
  · cases hd : d.mDefaultListener <;> simp [resetErrorCounters, resetListener, hd]

/-! ### Iteration infrastructure and modular-counter lemmas -/

theorem runOps_nil (w : World) : runOps w [] = w := rfl

theorem runOps_cons (w : World) (op : Op) (ops : List Op) :
    runOps w (op :: ops) = runOps (applyOp w op) ops := rfl

theorem runOps_append (w : World) (l₁ l₂ : List Op) :
    runOps w (l₁ ++ l₂) = runOps (runOps w l₁) l₂ :=
  List.foldl_append applyOp w l₁ l₂

theorem inc32_mod (k : Nat) : inc32 (k % UINT32_MOD) = (k + 1) % UINT32_MOD := by
  simp [inc32, UINT32_MOD]

theorem add32_mod (k e : Nat) : add32 (k % UINT32_MOD) e = (k + e) % UINT32_MOD := by
  simp [add32, UINT32_MOD]

theorem unmatchedIter_step (k : Nat) :
    handlePackage (unmatchedIterWorld k) [] 0 = unmatchedIterWorld (k + 1) := by
  simp [unmatchedIterWorld, handlePackage, extractId, inc32_mod]

theorem dropIter_step (k : Nat) :
    handlePackage (dropIterWorld k) [3] 1 = dropIterWorld (k + 1) := by
  simp [dropIterWorld, handlePackage, extractId, dispatchScan, deliver, applyOutcome,
    inc32_mod, add32_mod]

theorem partialIter_step (k : Nat) :
    handlePackage (partialIterWorld k) [4] 2 = partialIterWorld (k + 1) := by
  simp [partialIterWorld, handlePackage, extractId, dispatchScan, deliver, applyOutcome,
    inc32_mod]

theorem cex_stepA (a b g : Nat) :
    handlePackage (cexWorld a b g) [0] 1 = cexWorld (a + 1) b (g + 1) := by
  simp [cexWorld, handlePackage, extractId, dispatchScan, deliver, applyOutcome, inc32_mod]

theorem cex_stepB (a b g : Nat) :
    handlePackage (cexWorld a b g) [1] 1 = cexWorld a (b + 1) (g + 1) := by
  simp [cexWorld, handlePackage, extractId, dispatchScan, deliver, applyOutcome, inc32_mod]

theorem unmatchedIter_run (n : Nat) : ∀ k,
    runOps (unmatchedIterWorld k) (List.replicate n (Op.handle [] 0)) =
      unmatchedIterWorld (k + n) := by
  induction n with
  | zero => intro k; rfl
  | succ m ih =>
    intro k
    rw [List.replicate_succ, runOps_cons]
    show runOps (handlePackage (unmatchedIterWorld k) [] 0) _ = _
    rw [unmatchedIter_step, ih]
    congr 1
    omega

theorem dropIter_run (n : Nat) : ∀ k,
    runOps (dropIterWorld k) (List.replicate n (Op.handle [3] 1)) =
      dropIterWorld (k + n) := by
  induction n with
  | zero => intro k; rfl
  | succ m ih =>
    intro k
    rw [List.replicate_succ, runOps_cons]
    show runOps (handlePackage (dropIterWorld k) [3] 1) _ = _
    rw [dropIter_step, ih]
    congr 1
    omega

theorem partialIter_run (n : Nat) : ∀ k,
    runOps (partialIterWorld k) (List.replicate n (Op.handle [4] 2)) =
      partialIterWorld (k + n) := by
  induction n with
  | zero => intro k; rfl
  | succ m ih =>
    intro k
    rw [List.replicate_succ, runOps_cons]
    show runOps (handlePackage (partialIterWorld k) [4] 2) _ = _
    rw [partialIter_step, ih]
    congr 1
    omega

theorem cexA_run (n : Nat) : ∀ a b g,
    runOps (cexWorld a b g) (List.replicate n (Op.handle [0] 1)) =
      cexWorld (a + n) b (g + n) := by
  induction n with
  | zero => intro a b g; rfl
  | succ m ih =>
    intro a b g
    rw [List.replicate_succ, runOps_cons]
    show runOps (handlePackage (cexWorld a b g) [0] 1) _ = _
    rw [cex_stepA, ih]
    congr 1 <;> omega

/-- C10: every diagnostic counter is a `uint32_t` updated modulo 2^32.
In the three wrap scenarios —repeated unmatched frames, repeated
pool-rejected drops (which also overflow one byte each), and repeated
partial drops— the global and per-listener counters after `n` events all
read `n % 2^32`; in particular, after exactly 2^32 counted events of a
kind without a reset each such counter reads 0 again. -/
theorem C10_counters_are_uint32 :
    (∀ n : Nat,
      (runOps (unmatchedIterWorld 0)
        (List.replicate n (Op.handle [] 0))).dispatcher.mNumberOfUnmatchedPackages =
        n % UINT32_MOD) ∧
    (∀ n : Nat,
      (runOps (dropIterWorld 0)
        (List.replicate n (Op.handle [3] 1))).dispatcher.mNumberOfDroppedPackages =
        n % UINT32_MOD ∧
      (runOps (dropIterWorld 0)
        (List.replicate n (Op.handle [3] 1))).dispatcher.mNumberOfOverflowedBytes =
        n % UINT32_MOD ∧
      (runOps (dropIterWorld 0)
        (List.replicate n (Op.handle [3] 1))).dispatcher.mListeners.map
          (fun l => (l.mNumberOfDroppedPackages, l.mNumberOfOverflowedBytes)) =
        [(n % UINT32_MOD, n % UINT32_MOD)]) ∧
    (∀ n : Nat,
      (runOps (partialIterWorld 0)
        (List.replicate n (Op.handle [4] 2))).dispatcher.mNumberOfPartialPackages =
        n % UINT32_MOD ∧
      (runOps (partialIterWorld 0)
        (List.replicate n (Op.handle [4] 2))).dispatcher.mListeners.map
          (fun l => l.mNumberOfPartialPackages) =
        [n % UINT32_MOD]) ∧
    (runOps (unmatchedIterWorld 0)
      (List.replicate UINT32_MOD (Op.handle [] 0))).dispatcher.mNumberOfUnmatchedPackages = 0 ∧
    (runOps (dropIterWorld 0)
      (List.replicate UINT32_MOD (Op.handle [3] 1))).dispatcher.mNumberOfDroppedPackages = 0 := by
  have hu : ∀ n : Nat,
      runOps (unmatchedIterWorld 0) (List.replicate n (Op.handle [] 0)) =
        unmatchedIterWorld n := by
    intro n
    have := unmatchedIter_run n 0
    simpa using this
  have hd : ∀ n : Nat,
      runOps (dropIterWorld 0) (List.replicate n (Op.handle [3] 1)) = dropIterWorld n := by
    intro n
    have := dropIter_run n 0
    simpa using this
  have hp : ∀ n : Nat,
      runOps (partialIterWorld 0) (List.replicate n (Op.handle [4] 2)) =
        partialIterWorld n := by
    intro n
    have := partialIter_run n 0
    simpa using this
  refine ⟨?_, ?_, ?_, ?_, ?_⟩
  · intro n
    rw [hu n]
    rfl
  · intro n
    rw [hd n]
    exact ⟨rfl, rfl, rfl⟩
  · intro n
    rw [hp n]
    exact ⟨rfl, rfl⟩
  · rw [hu UINT32_MOD]
    simp [unmatchedIterWorld]
  · rw [hd UINT32_MOD]
    simp [dropIterWorld]

theorem natCast_mod32 (a : Nat) : ((a % UINT32_MOD : Nat) : ZMod UINT32_MOD) = a :=
  ZMod.natCast_mod a UINT32_MOD

theorem inc32_cast (a : Nat) : ((inc32 a : Nat) : ZMod UINT32_MOD) = a + 1 := by
  unfold inc32
  rw [natCast_mod32]
  push_cast
  ring

theorem add32_cast (a b : Nat) : ((add32 a b : Nat) : ZMod UINT32_MOD) = a + b := by
  unfold add32
  rw [natCast_mod32]
  push_cast
  ring

theorem deliver_listener_counters (l : Listener) (pools : List Pool) (queues : List Queue)
    (frame : List Nat) (rb : Nat) :
    (((deliver l pools queues frame rb).listener.mNumberOfDroppedPackages : Nat) :
        ZMod UINT32_MOD) =
      (l.mNumberOfDroppedPackages : ZMod UINT32_MOD) +
        (outDropDelta (deliver l pools queues frame rb).outcome : Nat) ∧
    (((deliver l pools queues frame rb).listener.mNumberOfPartialPackages : Nat) :
        ZMod UINT32_MOD) =
      (l.mNumberOfPartialPackages : ZMod UINT32_MOD) +
        (outPartDelta (deliver l pools queues frame rb).outcome : Nat) ∧
    (((deliver l pools queues frame rb).listener.mNumberOfOverflowedBytes : Nat) :
        ZMod UINT32_MOD) =
      (l.mNumberOfOverflowedBytes : ZMod UINT32_MOD) +
        (outOverDelta (deliver l pools queues frame rb).outcome : Nat) := by
  unfold deliver
  by_cases hnp : frame.length < rb ∧ l.mDropPartialFlag = true
  · rw [if_pos hnp]
    simp [outDropDelta, outPartDelta, outOverDelta, inc32_cast]
  rw [if_neg hnp]
  rcases hP : l.mPool with _ | pi
  · simp [hP, outDropDelta, outPartDelta, outOverDelta, inc32_cast]
  rcases hQ : l.mQueue with _ | qi
  · simp [hP, hQ, outDropDelta, outPartDelta, outOverDelta, inc32_cast]
  simp only [hP, hQ]
  rcases hp : pools[pi]? with _ | p
  · simp [hp, outDropDelta, outPartDelta, outOverDelta, inc32_cast]
  simp only [hp]
  by_cases hacq : frame.length ≤ p.blockSize ∧ 0 < p.freeCount
  · rw [if_pos hacq]
    rcases hq : queues[qi]? with _ | q
    · simp [hq, outDropDelta, outPartDelta, outOverDelta, inc32_cast]
    simp only [hq]
    by_cases hroom : q.items.length < q.capacity
    · rw [if_pos hroom]
      simp [outDropDelta, outPartDelta, outOverDelta]
    · rw [if_neg hroom]
      simp [outDropDelta, outPartDelta, outOverDelta, inc32_cast]
  · rw [if_neg hacq]
    by_cases hov : p.blockSize < frame.length
    · simp [hov, outDropDelta, outPartDelta, outOverDelta, inc32_cast, add32_cast]
    · simp [hov, outDropDelta, outPartDelta, outOverDelta, inc32_cast]

theorem dispatchScan_sum_delta (pid : List Nat) (pools : List Pool) (queues : List Queue)
    (frame : List Nat) (rb : Nat) (g : Listener → Nat) (dG : Outcome → Nat)
    (hdel : ∀ l : Listener,
      ((g (deliver l pools queues frame rb).listener : Nat) : ZMod UINT32_MOD) =
        (g l : ZMod UINT32_MOD) + (dG (deliver l pools queues frame rb).outcome : Nat)) :
    ∀ (ls : List Listener) (r : ScanResult),
      dispatchScan ls pid pools queues frame rb = some r →
      (((r.listeners.map g).sum : Nat) : ZMod UINT32_MOD) =
        (((ls.map g).sum : Nat) : ZMod UINT32_MOD) + (dG r.outcome : Nat) := by
  intro ls
  induction ls with
  | nil =>
    intro r h
    simp [dispatchScan] at h
  | cons a rest ih =>
    intro r h
    by_cases hid : a.mId = pid
    · simp only [dispatchScan, if_pos hid] at h
      cases h
      simp only [List.map_cons, List.sum_cons]
      push_cast
      rw [hdel a]
      ring
    · simp only [dispatchScan, if_neg hid] at h
      cases hrec : dispatchScan rest pid pools queues frame rb with
      | none =>
        rw [hrec] at h
        simp at h
      | some r' =>
        rw [hrec] at h
        simp only [Option.some.injEq] at h
        cases h
        simp only [List.map_cons, List.sum_cons]
        push_cast
        push_cast at ih
        rw [ih r' hrec]
        ring

theorem applyOutcome_counters (d : ProtocolDispatcher) (o : Outcome) :
    (((applyOutcome d o).mNumberOfDroppedPackages : Nat) : ZMod UINT32_MOD) =
      (d.mNumberOfDroppedPackages : ZMod UINT32_MOD) + (outDropDelta o : Nat) ∧
    (((applyOutcome d o).mNumberOfPartialPackages : Nat) : ZMod UINT32_MOD) =
      (d.mNumberOfPartialPackages : ZMod UINT32_MOD) + (outPartDelta o : Nat) ∧
    (((applyOutcome d o).mNumberOfOverflowedBytes : Nat) : ZMod UINT32_MOD) =
      (d.mNumberOfOverflowedBytes : ZMod UINT32_MOD) + (outOverDelta o : Nat) ∧
    (applyOutcome d o).mListeners = d.mListeners ∧
    (applyOutcome d o).mDefaultListener = d.mDefaultListener := by
  cases o with
  | delivered => simp [applyOutcome, outDropDelta, outPartDelta, outOverDelta]
  | partialDrop => simp [applyOutcome, outDropDelta, outPartDelta, outOverDelta, inc32_cast]
  | poolDrop b e =>
    cases b <;>
      simp [applyOutcome, outDropDelta, outPartDelta, outOverDelta, inc32_cast, add32_cast]
  | queueFullDrop => simp [applyOutcome, outDropDelta, outPartDelta, outOverDelta, inc32_cast]

theorem defaultCounter_congr (d d' : ProtocolDispatcher) (g : Listener → Nat)
    (h : d'.mDefaultListener = d.mDefaultListener) :
    defaultCounter d' g = defaultCounter d g := by
  unfold defaultCounter
  rw [h]

theorem map_reset_sum (ls : List Listener) (g : Listener → Nat)
    (hg : ∀ x, g (resetListener x) = 0) :
    ((ls.map resetListener).map g).sum = 0 := by
  apply List.sum_eq_zero
  intro x hx
  simp only [List.map_map, List.mem_map] at hx
  obtain ⟨b, _, rfl⟩ := hx
  exact hg b

theorem counterCongruence_applyOp (w : World) (op : Op)
    (h : counterCongruence w.dispatcher) :
    counterCongruence (applyOp w op).dispatcher := by
  obtain ⟨h1, h2, h3⟩ := h
  cases op with
  | addQ id po qu f =>
    show counterCongruence (addQueue w.dispatcher id po qu f).1
    cases po with
    | none => exact ⟨h1, h2, h3⟩
    | some pi =>
      cases qu with
      | none => exact ⟨h1, h2, h3⟩
      | some qi =>
        unfold addQueue
        dsimp only
        by_cases hfull : w.dispatcher.mListeners.length < w.dispatcher.numberOfQueues
        · rw [if_pos hfull]
          refine ⟨?_, ?_, ?_⟩ <;>
            simp_all [counterCongruence, defaultCounter, listenersSum]
        · rw [if_neg hfull]
          exact ⟨h1, h2, h3⟩
  | setDefault po qu f =>
    show counterCongruence (setDefaultQueue w.dispatcher po qu f).1
    cases po with
    | none => exact ⟨h1, h2, h3⟩
    | some pi =>
      cases qu with
      | none => exact ⟨h1, h2, h3⟩
      | some qi =>
        unfold setDefaultQueue
        cases hdl : w.dispatcher.mDefaultListener with
        | some dl => exact ⟨h1, h2, h3⟩
        | none =>
          refine ⟨?_, ?_, ?_⟩ <;>
            · unfold defaultCounter listenersSum at *
              simp_all
  | reset =>
    show counterCongruence (resetErrorCounters w.dispatcher)
    have hsum : ∀ g : Listener → Nat, (∀ x, g (resetListener x) = 0) →
        listenersSum (resetErrorCounters w.dispatcher) g = 0 := by
      intro g hg
      unfold listenersSum resetErrorCounters
      exact map_reset_sum w.dispatcher.mListeners g hg
    have hdef : ∀ g : Listener → Nat, (∀ x, g (resetListener x) = 0) →
        defaultCounter (resetErrorCounters w.dispatcher) g = 0 := by
      intro g hg
      unfold defaultCounter resetErrorCounters
      cases w.dispatcher.mDefaultListener <;> simp [hg]
    refine ⟨?_, ?_, ?_⟩
    · rw [hsum (fun l => l.mNumberOfDroppedPackages) (fun x => rfl),
        hdef (fun l => l.mNumberOfDroppedPackages) (fun x => rfl)]
      simp [resetErrorCounters]
    · rw [hsum (fun l => l.mNumberOfPartialPackages) (fun x => rfl),
        hdef (fun l => l.mNumberOfPartialPackages) (fun x => rfl)]
      simp [resetErrorCounters]
    · rw [hsum (fun l => l.mNumberOfOverflowedBytes) (fun x => rfl),
        hdef (fun l => l.mNumberOfOverflowedBytes) (fun x => rfl)]
      simp [resetErrorCounters]
  | handle frame rb =>
    show counterCongruence (handlePackage w frame rb).dispatcher
    simp only [handlePackage]
    cases hx : extractId w.dispatcher.mOffset w.dispatcher.idSize frame with
    | none => exact ⟨h1, h2, h3⟩
    | some pid =>
      dsimp only
      cases hscan : dispatchScan w.dispatcher.mListeners pid w.pools w.queues frame rb with
      | some r =>
        obtain ⟨a1, a2, a3, aL, aD⟩ :=
          applyOutcome_counters { w.dispatcher with mListeners := r.listeners } r.outcome
        have hdrop := dispatchScan_sum_delta pid w.pools w.queues frame rb
          (fun l => l.mNumberOfDroppedPackages) outDropDelta
          (fun l => (deliver_listener_counters l w.pools w.queues frame rb).1)
          w.dispatcher.mListeners r hscan
        have hpart := dispatchScan_sum_delta pid w.pools w.queues frame rb
          (fun l => l.mNumberOfPartialPackages) outPartDelta
          (fun l => (deliver_listener_counters l w.pools w.queues frame rb).2.1)
          w.dispatcher.mListeners r hscan
        have hover := dispatchScan_sum_delta pid w.pools w.queues frame rb
          (fun l => l.mNumberOfOverflowedBytes) outOverDelta
          (fun l => (deliver_listener_counters l w.pools w.queues frame rb).2.2)
          w.dispatcher.mListeners r hscan
        have hLsum : ∀ g : Listener → Nat,
            listenersSum (applyOutcome { w.dispatcher with mListeners := r.listeners }
              r.outcome) g = (r.listeners.map g).sum := by
          intro g
          unfold listenersSum
          rw [aL]
        have hDc : ∀ g : Listener → Nat,
            defaultCounter (applyOutcome { w.dispatcher with mListeners := r.listeners }
              r.outcome) g = defaultCounter w.dispatcher g := by
          intro g
          apply defaultCounter_congr
          rw [aD]
        refine ⟨?_, ?_, ?_⟩
        · rw [a1, hDc, hLsum, hdrop]
          rw [show ({ w.dispatcher with mListeners := r.listeners } :
              ProtocolDispatcher).mNumberOfDroppedPackages =
              w.dispatcher.mNumberOfDroppedPackages from rfl, h1]
          unfold listenersSum
          ring
        · rw [a2, hDc, hLsum, hpart]
          rw [show ({ w.dispatcher with mListeners := r.listeners } :
              ProtocolDispatcher).mNumberOfPartialPackages =
              w.dispatcher.mNumberOfPartialPackages from rfl, h2]
          unfold listenersSum
          ring
        · rw [a3, hDc, hLsum, hover]
          rw [show ({ w.dispatcher with mListeners := r.listeners } :
              ProtocolDispatcher).mNumberOfOverflowedBytes =
              w.dispatcher.mNumberOfOverflowedBytes from rfl, h3]
          unfold listenersSum
          ring
      | none =>
        cases hdl : w.dispatcher.mDefaultListener with
        | none =>
          have hd0 : ∀ g : Listener → Nat, defaultCounter w.dispatcher g = 0 := by
            intro g
            unfold defaultCounter
            rw [hdl]
          rw [hd0] at h1 h2 h3
          dsimp only
          refine ⟨?_, ?_, ?_⟩ <;>
            · unfold defaultCounter listenersSum at *
              simp_all
        | some dl =>
          obtain ⟨b1, b2, b3⟩ := deliver_listener_counters dl w.pools w.queues frame rb
          obtain ⟨a1, a2, a3, aL, aD⟩ :=
            applyOutcome_counters
              { w.dispatcher with
                  mDefaultListener := some (deliver dl w.pools w.queues frame rb).listener }
              (deliver dl w.pools w.queues frame rb).outcome
          refine ⟨?_, ?_, ?_⟩
          · show (((applyOutcome _ _).mNumberOfDroppedPackages : Nat) : ZMod UINT32_MOD) = _
            rw [a1, h1]
            unfold defaultCounter listenersSum at *
            rw [aD]
            simp only [hdl]
            rw [congrArg (fun x => ((x.map fun l => l.mNumberOfDroppedPackages).sum : Nat)) aL]
            push_cast
            rw [b1]
            ring
          · show (((applyOutcome _ _).mNumberOfPartialPackages : Nat) : ZMod UINT32_MOD) = _
            rw [a2, h2]
            unfold defaultCounter listenersSum at *
            rw [aD]
            simp only [hdl]
            rw [congrArg (fun x => ((x.map fun l => l.mNumberOfPartialPackages).sum : Nat)) aL]
            push_cast
            rw [b2]
            ring
          · show (((applyOutcome _ _).mNumberOfOverflowedBytes : Nat) : ZMod UINT32_MOD) = _
            rw [a3, h3]
            unfold defaultCounter listenersSum at *
            rw [aD]
            simp only [hdl]
            rw [congrArg (fun x => ((x.map fun l => l.mNumberOfOverflowedBytes).sum : Nat)) aL]
            push_cast
            rw [b3]
            ring

theorem counterCongruence_runOps (ops : List Op) : ∀ w : World,
    counterCongruence w.dispatcher → counterCongruence (runOps w ops).dispatcher := by
  induction ops with
  | nil => intro w h; exact h
  | cons op rest ih =>
    intro w h
    rw [runOps_cons]
    exact ih (applyOp w op) (counterCongruence_applyOp w op h)

/-- C9 counterexample: after the two registrations, 2^32 - 1 drops counted
against the first listener and two more against the second, the global
dropped counter has wrapped to 1 while the per-listener counters sum to
2^32 + 1, so the claimed inequality fails in this reachable state. -/
theorem C9_counterexample :
    ¬ globalCountersGeListenerSums
      (runOps ⟨ProtocolDispatcher.init 2 1 0, [⟨1, 0⟩], [⟨1, []⟩]⟩
        (Op.addQ [0] (some 0) (some 0) false :: Op.addQ [1] (some 0) (some 0) false ::
          (List.replicate 4294967295 (Op.handle [0] 1) ++
            [Op.handle [1] 1, Op.handle [1] 1]))).dispatcher := by
  have h0 : applyOp (applyOp ⟨ProtocolDispatcher.init 2 1 0, [⟨1, 0⟩], [⟨1, []⟩]⟩
      (Op.addQ [0] (some 0) (some 0) false)) (Op.addQ [1] (some 0) (some 0) false) =
      cexWorld 0 0 0 := by decide
  have h2 : runOps (cexWorld 4294967295 0 4294967295) [Op.handle [1] 1, Op.handle [1] 1] =
      cexWorld 4294967295 2 4294967297 := by
    rw [runOps_cons]
    show runOps (handlePackage (cexWorld 4294967295 0 4294967295) [1] 1) _ = _
    rw [cex_stepB, runOps_cons]
    show runOps (handlePackage (cexWorld 4294967295 1 4294967296) [1] 1) _ = _
    rw [cex_stepB]
    rfl
  rw [runOps_cons, runOps_cons, h0, runOps_append, cexA_run]
  simp only [Nat.zero_add]
  rw [h2]
  unfold globalCountersGeListenerSums listenersSum
  decide

/-- C9 (amended): in every state reachable from a freshly constructed
dispatcher by `addQueue`, `setDefaultQueue`, `handlePackage` and
`resetErrorCounters` calls, each global counter (dropped, partial,
overflowed bytes) is congruent modulo 2^32 to the sum of the
corresponding per-listener counters plus the default listener's counter;
the plain ≥ inequality of the claim holds only until a counter wraps and
can fail afterwards (see the counterexample). -/
theorem C9_amended_counter_congruence (noq idS off : Nat) (pools : List Pool)
    (queues : List Queue) (ops : List Op) :
    counterCongruence
      (runOps ⟨ProtocolDispatcher.init noq idS off, pools, queues⟩ ops).dispatcher := by
  apply counterCongruence_runOps
  unfold counterCongruence defaultCounter listenersSum ProtocolDispatcher.init
  simp
